import Mathlib

/-!
Verification of the persistent-cache synchronization engine in
`src/database.ts` (obsidian-database-library).

The embedding models the `Database<T>` class state: the in-memory cache
(`memory`, a JavaScript `Map` represented as an association list with unique
keys, in insertion order), the pending-deletions set (`deleted_keys`), the
durable store (`persist`, the localforage/IndexedDB contents, also a key-value
map), and whether a debounced update/flush has been scheduled
(`updateScheduled`, set by every call to `databaseUpdate()`).

Asynchronous storage calls are modelled by explicit success flags on
`persistMemory`; a thrown JavaScript error is modelled as a `some errorMessage`
component of the result, paired with the state at the moment of the throw
(mutations in the source happen strictly before or strictly after each
potential throw point, so this is exact).
-/

set_option autoImplicit false

namespace ObsidianDB

/-- Type `DatabaseItem<T> = \x7b data: T, mtime: number \x7d` from database.ts. -/
structure DatabaseItem (T : Type) where
  data : T
  mtime : Nat
deriving DecidableEq, Repr

/-- Type `MemoryDatabaseItem<T>`, adding the optional `dirty` field;
the optional `dirty` field is only ever tested for truthiness, so `undefined`
is identified with `false`. -/
structure MemoryDatabaseItem (T : Type) where
  data : T
  mtime : Nat
  dirty : Bool
deriving DecidableEq, Repr

/-- A vault file as the database sees it: `file.path` and `file.stat.mtime`. -/
structure TFile where
  path : String
  mtime : Nat
deriving DecidableEq, Repr

/-- JavaScript `Map.get`: value of the first (unique) binding of `k`. -/
def mapGet {α : Type} : List (String × α) → String → Option α
  | [], _ => none
  | p :: rest, k => if p.1 = k then some p.2 else mapGet rest k

/-- JavaScript `Map.set`: replace the binding in place if the key is present
(keeping insertion order), otherwise append a new binding. -/
def mapSet {α : Type} : List (String × α) → String → α → List (String × α)
  | [], k, v => [(k, v)]
  | p :: rest, k, v => if p.1 = k then (k, v) :: rest else p :: mapSet rest k v

/-- JavaScript `Map.delete`: remove the binding of `k` (all of them; under the
unique-keys representation invariant there is at most one). -/
def mapDelete {α : Type} : List (String × α) → String → List (String × α)
  | [], _ => []
  | p :: rest, k => if p.1 = k then mapDelete rest k else p :: mapDelete rest k

/-- JavaScript `Set.add` on the insertion-ordered key set. -/
def setAdd (s : List String) (k : String) : List String :=
  if k ∈ s then s else s ++ [k]

/-- State of a `Database<T>` instance. -/
structure DBState (T : Type) where
  memory : List (String × MemoryDatabaseItem T)
  deleted_keys : List String
  persist : List (String × DatabaseItem T)
  updateScheduled : Bool
deriving DecidableEq, Repr

/-- Source `getItem(key)`: `this.memory.get(key) ?? null`. -/
def getItem {T : Type} (s : DBState T) (key : String) : Option (MemoryDatabaseItem T) :=
  mapGet s.memory key

/-- Source `getValue(key)`: `this.memory.get(key)?.data ?? null`. -/
def getValue {T : Type} (s : DBState T) (key : String) : Option T :=
  (mapGet s.memory key).map (fun v => v.data)

/-- Source `allKeys()`. -/
def allKeys {T : Type} (s : DBState T) : List String :=
  s.memory.map (fun p => p.1)

/-- Source `isEmpty()`: `this.memory.size === 0`. -/
def isEmpty {T : Type} (s : DBState T) : Bool :=
  s.memory.length = 0

/-- Source `storeKey(key, value, mtime?, dirty = true)`; `mtime ?? Date.now()` is
modelled by an explicit clock value `now`.  The trailing `databaseUpdate()`
sets the scheduled flag. -/
def storeKey {T : Type} (s : DBState T) (key : String) (value : T)
    (mtime : Option Nat) (now : Nat) (dirty : Bool) : DBState T :=
  { s with
      memory := mapSet s.memory key ⟨value, mtime.getD now, dirty⟩,
      updateScheduled := true }

/-- Source `deleteKey(key)`: throws `'Key does not exist'` when the key is absent
(before any mutation), otherwise removes the key from memory, records it in
`deleted_keys`, and schedules an update. -/
def deleteKey {T : Type} (s : DBState T) (key : String) : DBState T × Option String :=
  match mapGet s.memory key with
  | none => (s, some "Key does not exist")
  | some _ =>
      ({ s with
          memory := mapDelete s.memory key,
          deleted_keys := setAdd s.deleted_keys key,
          updateScheduled := true }, none)

/-- Source `renameKey(oldKey, newKey, mtime?)`: throws when `oldKey` is absent,
otherwise `storeKey(newKey, value.data, mtime)` then `deleteKey(oldKey)` then
`databaseUpdate()`. -/
def renameKey {T : Type} (s : DBState T) (oldKey newKey : String)
    (mtime : Option Nat) (now : Nat) : DBState T × Option String :=
  match mapGet s.memory oldKey with
  | none => (s, some "Key does not exist")
  | some value =>
      let s1 := storeKey s newKey value.data mtime now true
      match deleteKey s1 oldKey with
      | (s2, some e) => (s2, some e)
      | (s2, none) => ({ s2 with updateScheduled := true }, none)

/-- The entry written for a dirty memory entry: `{ data, mtime }` with the
`dirty` flag stripped. -/
def cleanEntry {T : Type} (p : String × MemoryDatabaseItem T) :
    String × MemoryDatabaseItem T :=
  if p.2.dirty then (p.1, ⟨p.2.data, p.2.mtime, false⟩) else p

/-- The `to_set` record built by `persistMemory`: all dirty entries, projected
to persisted form. -/
def flushWriteSet {T : Type} (s : DBState T) : List (String × DatabaseItem T) :=
  (s.memory.filter (fun p => p.2.dirty)).map (fun p => (p.1, ⟨p.2.data, p.2.mtime⟩))

/-- Source `persistMemory()`.  The loop over `memory.entries()` synchronously builds
`to_set` and marks every dirty entry clean *before* the first `await`; then
`setItems(to_set)` runs (failure modelled by `setItemsOk = false`, aborting
before any removal and before `deleted_keys.clear()`); then the batched
`removeItem` calls run (failure modelled by `removeOk = false`, aborting before
`deleted_keys.clear()`); finally `deleted_keys` is cleared. -/
def persistMemory {T : Type} (s : DBState T) (setItemsOk removeOk : Bool) :
    DBState T × Option String :=
  let memory2 := s.memory.map cleanEntry
  if setItemsOk = false then
    ({ s with memory := memory2 }, some "setItems failed")
  else
    let persist2 := (flushWriteSet s).foldl (fun p kv => mapSet p kv.1 kv.2) s.persist
    if removeOk = false then
      ({ s with memory := memory2, persist := persist2 }, some "removeItem failed")
    else
      ({ s with
          memory := memory2,
          persist := s.deleted_keys.foldl (fun p k => mapDelete p k) persist2,
          deleted_keys := [] }, none)

/-- Source `clearDatabase()`: `this.memory.clear()` and `this.persist.clear()` — both
the in-memory cache and the durable contents are wiped. -/
def clearDatabase {T : Type} (s : DBState T) : DBState T :=
  { s with memory := [], persist := [] }

/-- The three startup branches of the constructor's `onLayoutReady` callback
(database.ts lines 131-140). -/
inductive StartupOp where
  | migrate
  | create
  | sync
deriving DecidableEq, Repr

/-- Model of `parseInt(loadLocalStorage(name + '-version')) || null`: a missing or
non-numeric stored value gives `null`; the `|| null` coercion also maps a
stored `0` to `null`. -/
def parseStoredVersion (stored : Option Nat) : Option Nat :=
  match stored with
  | none => none
  | some n => if n = 0 then none else some n

/-- Condition `oldVersion !== null && oldVersion < version`. -/
def versionLt (oldVersion : Option Nat) (version : Nat) : Bool :=
  match oldVersion with
  | some o => decide (o < version)
  | none => false

/-- The branch taken at startup: `oldVersion !== null && oldVersion < version
&& !this.isEmpty()` selects migration, `else if (this.isEmpty())` selects
creation, `else` incremental sync. -/
def startupBranch (oldVersion : Option Nat) (version : Nat) (empty : Bool) : StartupOp :=
  if versionLt oldVersion version && !empty then .migrate
  else if empty then .create
  else .sync

/-- The observable actions each startup branch performs, in order. -/
inductive StartupAction where
  | clearAll
  | rebuild
  | emitMigrate
  | emitCreate
  | runSync
deriving DecidableEq, Repr

/-- Trace of the startup branch: migrate = `clearDatabase(); rebuildDatabase();
trigger('database-migrate')`; create = `rebuildDatabase();
trigger('database-create')`; sync = `syncDatabase()`. -/
def startupActions (oldVersion : Option Nat) (version : Nat) (empty : Bool) :
    List StartupAction :=
  match startupBranch oldVersion version empty with
  | .migrate => [.clearAll, .rebuild, .emitMigrate]
  | .create => [.rebuild, .emitCreate]
  | .sync => [.runSync]

/-- One iteration of the `regularParseFiles` loop: re-extract and store iff the
key is absent (`value === null`) or the cached entry is strictly older
(`value.mtime < file.stat.mtime`).  The boolean records whether `extractValue`
was invoked. -/
def parseStep {T : Type} (extractValue : TFile → T) (s : DBState T) (file : TFile) :
    DBState T × Bool :=
  match mapGet s.memory file.path with
  | none => (storeKey s file.path (extractValue file) (some file.mtime) 0 true, true)
  | some value =>
      if value.mtime < file.mtime then
        (storeKey s file.path (extractValue file) (some file.mtime) 0 true, true)
      else (s, false)

/-- Source `regularParseFiles(files)`: the sequential small-batch path. -/
def regularParseFiles {T : Type} (extractValue : TFile → T) (s : DBState T)
    (files : List TFile) : DBState T :=
  files.foldl (fun st f => (parseStep extractValue st f).1) s

/-- The `filesToParse` filter of `syncDatabase`: keep a file iff
`!this.memory.has(file.path) || this.memory.get(file.path)!.mtime <
file.stat.mtime`. -/
def syncFilesToParse {T : Type} (s : DBState T) (markdownFiles : List TFile) :
    List TFile :=
  markdownFiles.filter (fun file =>
    match mapGet s.memory file.path with
    | none => true
    | some v => decide (v.mtime < file.mtime))

/-- Value `Math.ceil(files.length / this.workers)` (for at least one worker). -/
def chunk_size (n workers : Nat) : Nat := (n + workers - 1) / workers

/-- The contiguous chunks `files.slice(i * chunk_size, (i + 1) * chunk_size)`
for `i = 0 .. workers - 1`. -/
def chunksOf {α : Type} (workers : Nat) (files : List α) : List (List α) :=
  (List.range workers).map (fun i =>
    (files.drop (i * chunk_size files.length workers)).take
      (chunk_size files.length workers))

/-- The `(file, extracted value)` pairs stored by the worker `onmessage`
handlers, across all workers in order: worker `i` pairs its chunk of `files`
positionally with its chunk of `results` (each worker returns a same-length,
order-aligned result list for its chunk). -/
def workerStores {T : Type} (workers : Nat) (files : List TFile) (results : List T) :
    List (TFile × T) :=
  ((((chunksOf workers files).zip (chunksOf workers results)).map
    (fun cr => cr.1.zip cr.2))).flatten

/-- The cache mutations of `workerParseFiles`: each attributed result is stored
via `storeKey(file.path, loadValue(event.data[i]), file.stat.mtime, true)`. -/
def workerParseFiles {T : Type} (loadValue : T → T) (s : DBState T)
    (workers : Nat) (files : List TFile) (results : List T) : DBState T :=
  (workerStores workers files results).foldl
    (fun st fr => storeKey st fr.1.path (loadValue fr.2) (some fr.1.mtime) 0 true) s

/-- The invariant claimed by the spec: no key is simultaneously pending
deletion and present in the in-memory cache. -/
def DisjointCacheDeleted {T : Type} (s : DBState T) : Prop :=
  ∀ k ∈ s.deleted_keys, mapGet s.memory k = none

instance {T : Type} [DecidableEq T] (s : DBState T) :
    Decidable (DisjointCacheDeleted s) :=
  inferInstanceAs (Decidable (∀ k ∈ s.deleted_keys, mapGet s.memory k = none))

/-! Concrete sample states used to exercise the operations -/

def dbC1 : DBState Nat := ⟨[("a", ⟨0, 0, false⟩)], [], [], false⟩

def dbC2 : DBState Nat := ⟨[("a", ⟨5, 1, true⟩)], ["b"], [("b", ⟨9, 0⟩)], false⟩

def dbC3 : DBState Nat := ⟨[], [], [], false⟩

def dbC5 : DBState Nat := ⟨[("a.md", ⟨3, 10, false⟩)], [], [], false⟩

def filesC6 : List TFile := [⟨"a.md", 1⟩, ⟨"b.md", 2⟩, ⟨"c.md", 3⟩]

def resultsC6 : List Nat := [10, 20, 30]

def dbC7 : DBState Nat := ⟨[("a", ⟨7, 1, false⟩)], [], [], false⟩

def dbC8 : DBState Nat := ⟨[("a", ⟨5, 1, true⟩), ("b", ⟨6, 2, false⟩)], ["c"], [], false⟩

def dbC9 : DBState Nat := ⟨[("a", ⟨1, 2, true⟩)], ["b"], [("c", ⟨3, 4⟩)], false⟩

def dbC10 : DBState Nat := ⟨[("x", ⟨1, 1, false⟩)], [], [], false⟩

/-! Lemmas about the map and set primitives -/

theorem mapGet_mapSet {α : Type} (m : List (String × α)) (k k2 : String) (v : α) :
    mapGet (mapSet m k v) k2 = if k2 = k then some v else mapGet m k2 := by
  induction m with
  | nil =>
      by_cases h : k2 = k
      · subst h; simp [mapSet, mapGet]
      · have hk : ¬k = k2 := fun h2 => h h2.symm
        simp [mapSet, mapGet, h, hk]
  | cons p rest ih =>
      by_cases hp : p.1 = k
      · by_cases h : k2 = k
        · subst h; simp [mapSet, mapGet, hp]
        · have hk : ¬k = k2 := fun h2 => h h2.symm
          have hp2 : ¬p.1 = k2 := fun h2 => h ((hp.symm.trans h2).symm)
          simp [mapSet, mapGet, hp, h, hk, hp2]
      · by_cases h : k2 = k
        · subst h; simp [mapSet, mapGet, hp, ih]
        · simp [mapSet, mapGet, hp, h, ih]

theorem mapGet_mapDelete {α : Type} (m : List (String × α)) (k k2 : String) :
    mapGet (mapDelete m k) k2 = if k2 = k then none else mapGet m k2 := by
  induction m with
  | nil => simp [mapDelete, mapGet]
  | cons p rest ih =>
      by_cases hp : p.1 = k
      · by_cases h : k2 = k
        · subst h; simp [mapDelete, hp, ih]
        · have hp2 : ¬p.1 = k2 := fun h2 => h ((hp.symm.trans h2).symm)
          have hk : ¬k = k2 := fun h2 => h h2.symm
          simp [mapDelete, mapGet, hp, h, hp2, hk, ih]
      · by_cases h : k2 = k
        · subst h; simp [mapDelete, mapGet, hp, ih]
        · simp [mapDelete, mapGet, hp, h, ih]

theorem mem_setAdd (s : List String) (k k2 : String) :
    (k2 ∈ setAdd s k) ↔ (k2 ∈ s ∨ k2 = k) := by
  unfold setAdd
  split_ifs with h
  · constructor
    · exact fun h2 => Or.inl h2
    · rintro (h2 | rfl)
      · exact h2
      · exact h
  · simp [List.mem_append]

theorem mem_mapSet_self {α : Type} (m : List (String × α)) (k : String) (v : α) :
    (k, v) ∈ mapSet m k v := by
  induction m with
  | nil => simp [mapSet]
  | cons p rest ih =>
      simp only [mapSet]
      split_ifs with hp
      · exact List.mem_cons_self _ _
      · exact List.mem_cons_of_mem _ ih

theorem cleanEntry_dirty_false {T : Type} (p : String × MemoryDatabaseItem T) :
    (cleanEntry p).2.dirty = false := by
  unfold cleanEntry
  split_ifs with h
  · rfl
  · simp only [Bool.not_eq_true] at h
    exact h

theorem filter_dirty_map_cleanEntry {T : Type}
    (m : List (String × MemoryDatabaseItem T)) :
    (m.map cleanEntry).filter (fun p => p.2.dirty) = [] := by
  induction m with
  | nil => rfl
  | cons p rest ih => simp [List.filter_cons, cleanEntry_dirty_false, ih]

/-! Lemmas about chunking -/

theorem take_add_split {α : Type} : ∀ (m n : Nat) (xs : List α),
    xs.take (m + n) = xs.take m ++ (xs.drop m).take n
  | 0, n, xs => by simp
  | m+1, n, [] => by simp
  | m+1, n, x :: xs => by
      have h : m + 1 + n = (m + n) + 1 := by omega
      rw [h]
      simp only [List.take_succ_cons, List.drop_succ_cons, List.cons_append]
      rw [take_add_split m n xs]

theorem flatten_range_chunks {α : Type} (cs : Nat) :
    ∀ (workers : Nat) (xs : List α),
    (((List.range workers).map (fun i => (xs.drop (i * cs)).take cs))).flatten
      = xs.take (workers * cs)
  | 0, _ => by simp
  | w+1, xs => by
      rw [List.range_succ_eq_map]
      simp only [List.map_cons, List.map_map, List.flatten_cons, Nat.zero_mul,
        List.drop_zero]
      have hcomp : ((fun i => (xs.drop (i * cs)).take cs) ∘ Nat.succ)
          = fun i => (((xs.drop cs).drop (i * cs)).take cs) := by
        funext i
        simp only [Function.comp_apply]
        rw [List.drop_drop, Nat.succ_mul, Nat.add_comm (i * cs) cs]
      rw [hcomp, flatten_range_chunks cs w (xs.drop cs)]
      rw [← take_add_split]
      congr 1
      ring

theorem le_mul_chunk_size (n w : Nat) (hw : 1 ≤ w) : n ≤ w * chunk_size n w := by
  unfold chunk_size
  have h1 := Nat.div_add_mod (n + w - 1) w
  have h2 := Nat.mod_lt (n + w - 1) (show 0 < w from hw)
  generalize hr : (n + w - 1) % w = r at h1 h2
  generalize hX : w * ((n + w - 1) / w) = X at h1 ⊢
  omega

theorem chunksOf_flatten {α : Type} (workers : Nat) (files : List α)
    (hw : 1 ≤ workers) :
    (chunksOf workers files).flatten = files := by
  unfold chunksOf
  rw [flatten_range_chunks]
  exact List.take_of_length_le (le_mul_chunk_size files.length workers hw)

theorem chunksOf_length_le {α : Type} (workers : Nat) (files : List α) :
    ∀ c ∈ chunksOf workers files, c.length ≤ chunk_size files.length workers := by
  intro c hc
  unfold chunksOf at hc
  rw [List.mem_map] at hc
  obtain ⟨i, _, rfl⟩ := hc
  exact List.length_take_le _ _

theorem zip_chunksOf {α β : Type} (workers : Nat) (xs : List α) (ys : List β)
    (hlen : ys.length = xs.length) :
    ((chunksOf workers xs).zip (chunksOf workers ys)).map (fun cr => cr.1.zip cr.2)
      = chunksOf workers (xs.zip ys) := by
  unfold chunksOf
  have hzlen : (xs.zip ys).length = xs.length := by
    rw [List.zip_eq_zipWith, List.length_zipWith, hlen, Nat.min_self]
  simp only [hzlen, hlen]
  rw [List.zip_map', List.map_map]
  apply List.map_congr_left
  intro i _
  simp only [Function.comp_apply]
  rw [List.zip_eq_zipWith, List.zip_eq_zipWith, ← List.take_zipWith, ← List.drop_zipWith]

/-! Claim C1: cache / pending-deletions disjointness -/

/-- Claim C1 is refuted: starting from a disjoint state, `deleteKey("a")`
followed by `storeKey("a", 1, 2)` leaves `"a"` both present in the in-memory
cache and in `deleted_keys`, because `storeKey` never removes its key from the
pending-deletions set. -/
theorem delete_then_store_violates_disjoint :
    mapGet (storeKey (deleteKey dbC1 "a").1 "a" 1 (some 2) 0 true).memory "a"
        = some ⟨1, 2, true⟩ ∧
    "a" ∈ (storeKey (deleteKey dbC1 "a").1 "a" 1 (some 2) 0 true).deleted_keys := by
  decide

/-- Claim C1 (amended): `storeKey` of a key that is pending deletion re-adds
it to the cache without unmarking it, so `deleteKey(k)` then `storeKey(k, v)`
before a flush leaves `k` in both (see the counterexample); disjointness is
preserved by `deleteKey` starting from any disjoint state and by any
`storeKey` whose key is not currently pending deletion, and a successful flush
empties `deleted_keys`, restoring disjointness from EVERY state — including
the violated delete-then-store states. -/
theorem disjoint_invariant_amended {T : Type} (s : DBState T) (k : String)
    (v : T) (mt : Option Nat) (now : Nat) :
    (DisjointCacheDeleted s → DisjointCacheDeleted (deleteKey s k).1) ∧
    (DisjointCacheDeleted s → k ∉ s.deleted_keys →
        DisjointCacheDeleted (storeKey s k v mt now true)) ∧
    (persistMemory s true true).1.deleted_keys = [] ∧
    DisjointCacheDeleted (persistMemory s true true).1 := by
  refine ⟨?_, ?_, ?_, ?_⟩
  · intro hdisj
    unfold deleteKey
    cases hg : mapGet s.memory k with
    | none => exact hdisj
    | some v0 =>
        intro k2 hk2
        simp only [mem_setAdd] at hk2
        simp only [mapGet_mapDelete]
        rcases hk2 with hk2 | rfl
        · by_cases h2 : k2 = k
          · rw [if_pos h2]
          · rw [if_neg h2]
            exact hdisj k2 hk2
        · rw [if_pos rfl]
  · intro hdisj hk k2 hk2
    simp only [storeKey] at hk2 ⊢
    rw [mapGet_mapSet]
    have h2 : ¬k2 = k := fun h => hk (h ▸ hk2)
    rw [if_neg h2]
    exact hdisj k2 hk2
  · simp [persistMemory]
  · intro k2 hk2
    simp [persistMemory] at hk2

theorem disjoint_invariant_amended_witness :
    DisjointCacheDeleted (deleteKey dbC1 "a").1 ∧
    DisjointCacheDeleted (storeKey dbC1 "b" 1 (some 2) 0 true) ∧
    (persistMemory (storeKey (deleteKey dbC1 "a").1 "a" 1 (some 2) 0 true)
        true true).1.deleted_keys = [] ∧
    DisjointCacheDeleted
      (persistMemory (storeKey (deleteKey dbC1 "a").1 "a" 1 (some 2) 0 true)
        true true).1 :=
  ⟨(disjoint_invariant_amended dbC1 "a" 1 (some 2) 0).1 (by decide),
    (disjoint_invariant_amended dbC1 "b" 1 (some 2) 0).2.1 (by decide) (by decide),
    (disjoint_invariant_amended
      (storeKey (deleteKey dbC1 "a").1 "a" 1 (some 2) 0 true) "a" 1
      (some 2) 0).2.2.1,
    (disjoint_invariant_amended
      (storeKey (deleteKey dbC1 "a").1 "a" 1 (some 2) 0 true) "a" 1
      (some 2) 0).2.2.2⟩

/-! Claim C2: flush failure retention -/

/-- Claim C2 is refuted: with one dirty entry `"a"`, a failing `setItems`
leaves the entry marked clean — the dirty flags are cleared synchronously
before the batched write is awaited, so a dirty entry caught in a failed flush
is not retried. -/
theorem persist_failure_drops_dirty :
    (persistMemory dbC2 false false).2 = some "setItems failed" ∧
    mapGet (persistMemory dbC2 false false).1.memory "a" = some ⟨5, 1, false⟩ := by
  decide

/-- Claim C2 (amended): if the flush fails, every key pending deletion is
still in `deleted_keys` (the clear is only reached after both storage calls
succeed) and a failed `setItems` leaves the durable store unwritten; but dirty
entries are NOT preserved: all dirty flags are cleared before the write is
awaited, so after a failed flush no entry is marked dirty and the next flush's
write set is empty — the failed entries are not retried. -/
theorem persistMemory_failure_amended {T : Type} (s : DBState T)
    (ok1 ok2 : Bool) (hfail : (persistMemory s ok1 ok2).2.isSome = true) :
    (persistMemory s ok1 ok2).1.deleted_keys = s.deleted_keys ∧
    flushWriteSet (persistMemory s ok1 ok2).1 = [] ∧
    (ok1 = false → (persistMemory s ok1 ok2).1.persist = s.persist) := by
  cases ok1 <;> cases ok2 <;>
    simp [persistMemory, flushWriteSet, filter_dirty_map_cleanEntry] at hfail ⊢

theorem persistMemory_failure_amended_witness :
    (persistMemory dbC2 false false).2.isSome = true ∧
    ((persistMemory dbC2 false false).1.deleted_keys = dbC2.deleted_keys ∧
      flushWriteSet (persistMemory dbC2 false false).1 = [] ∧
      (false = false → (persistMemory dbC2 false false).1.persist = dbC2.persist)) :=
  ⟨by decide, persistMemory_failure_amended dbC2 false false (by decide)⟩

/-! Claim C3: delete of an absent key -/

/-- Claim C3 names a code bug: `deleteKey` on a key absent from the in-memory
cache (for example one already removed by a prior sync pass) throws
`'Key does not exist'` instead of being a no-op, crashing the event pipeline
on repeated delivery of the same delete event. -/
theorem deleteKey_absent_throws :
    deleteKey dbC3 "a.md" = (dbC3, some "Key does not exist") := rfl

/-! Claim C4: startup decision -/

/-- Claim C4 (confirmed): startup takes exactly one of the three branches —
migrate (clear durable + memory, full rebuild, emit `database-migrate`) iff a
stored version exists, is strictly less than the configured version, and the
loaded cache is non-empty; create (full rebuild, emit `database-create`) iff
the cache is empty after load; incremental sync otherwise. -/
theorem startupBranch_trichotomy (oldVersion : Option Nat) (version : Nat)
    (empty : Bool) :
    (versionLt oldVersion version = true ↔
        ∃ o, oldVersion = some o ∧ o < version) ∧
    (startupBranch oldVersion version empty = .migrate ↔
        versionLt oldVersion version = true ∧ empty = false) ∧
    (startupBranch oldVersion version empty = .create ↔ empty = true) ∧
    (startupBranch oldVersion version empty = .sync ↔
        versionLt oldVersion version = false ∧ empty = false) ∧
    (startupActions oldVersion version empty
        = [.clearAll, .rebuild, .emitMigrate]
      ∨ startupActions oldVersion version empty = [.rebuild, .emitCreate]
      ∨ startupActions oldVersion version empty = [.runSync]) := by
  refine ⟨?_, ?_⟩
  · cases oldVersion with
    | none => simp [versionLt]
    | some o => simp [versionLt]
  · unfold startupActions startupBranch
    cases empty <;> cases hv : versionLt oldVersion version <;> simp [hv]

theorem startupBranch_trichotomy_witness :
    (versionLt (some 1) 2 = true ↔ ∃ o, (some 1 : Option Nat) = some o ∧ o < 2) ∧
    (startupBranch (some 1) 2 false = .migrate ↔
        versionLt (some 1) 2 = true ∧ false = false) ∧
    (startupBranch (some 1) 2 false = .create ↔ false = true) ∧
    (startupBranch (some 1) 2 false = .sync ↔
        versionLt (some 1) 2 = false ∧ false = false) ∧
    (startupActions (some 1) 2 false = [.clearAll, .rebuild, .emitMigrate]
      ∨ startupActions (some 1) 2 false = [.rebuild, .emitCreate]
      ∨ startupActions (some 1) 2 false = [.runSync]) :=
  startupBranch_trichotomy (some 1) 2 false

/-! Claim C5: staleness monotonicity -/

/-- Claim C5 (confirmed): on the small-batch path a document whose
modification time is at most the cached `mtime` is skipped — `extractValue` is
not invoked and the whole state (in particular the cached entry) is unchanged;
extraction and re-store happen exactly when the key is absent from the cache
or the cached `mtime` is strictly older; and `syncDatabase` selects a file for
parsing under exactly the same condition. -/
theorem parse_staleness {T : Type} (extractValue : TFile → T) (s : DBState T)
    (file : TFile) (files : List TFile) :
    (∀ v, mapGet s.memory file.path = some v → file.mtime ≤ v.mtime →
        parseStep extractValue s file = (s, false)) ∧
    ((parseStep extractValue s file).2 = true ↔
        mapGet s.memory file.path = none ∨
        ∃ v, mapGet s.memory file.path = some v ∧ v.mtime < file.mtime) ∧
    (file ∈ syncFilesToParse s files ↔
        file ∈ files ∧ (mapGet s.memory file.path = none ∨
          ∃ v, mapGet s.memory file.path = some v ∧ v.mtime < file.mtime)) := by
  refine ⟨?_, ?_, ?_⟩
  · intro v hg hle
    unfold parseStep
    rw [hg]
    simp only [if_neg (Nat.not_lt.mpr hle)]
  · unfold parseStep
    cases hg : mapGet s.memory file.path with
    | none => simp
    | some v =>
        by_cases hlt : v.mtime < file.mtime
        · simp [hlt]
        · simp [hlt]
  · unfold syncFilesToParse
    rw [List.mem_filter]
    cases hg : mapGet s.memory file.path with
    | none => simp
    | some v => simp

theorem parse_staleness_witness :
    parseStep (fun _ => (42 : Nat)) dbC5 ⟨"a.md", 5⟩ = (dbC5, false) :=
  (parse_staleness (fun _ => (42 : Nat)) dbC5 ⟨"a.md", 5⟩ []).1
    ⟨3, 10, false⟩ (by decide) (by decide)

/-! Claim C6: worker-pool chunk alignment -/

/-- Claim C6 (confirmed): for `N` documents and `W ≥ 1` workers the
worker-pool path slices the list into contiguous chunks of size
`ceil(N / W)` (later chunks possibly shorter or empty) whose concatenation is
exactly the original list, so each document lands in exactly one chunk; and
with order-aligned worker responses, consuming all responses stores exactly
`N` results, the `i`-th result attributed positionally to the key of the
`i`-th document. -/
theorem worker_chunk_alignment {T : Type} (workers : Nat) (files : List TFile)
    (results : List T) (hw : 1 ≤ workers)
    (hlen : results.length = files.length) :
    (chunksOf workers files).flatten = files ∧
    (∀ c ∈ chunksOf workers files, c.length ≤ chunk_size files.length workers) ∧
    workerStores workers files results = files.zip results ∧
    (workerStores workers files results).length = files.length := by
  have hws : workerStores workers files results = files.zip results := by
    unfold workerStores
    rw [zip_chunksOf workers files results hlen,
      chunksOf_flatten workers (files.zip results) hw]
  refine ⟨chunksOf_flatten workers files hw, chunksOf_length_le workers files,
    hws, ?_⟩
  rw [hws, List.zip_eq_zipWith, List.length_zipWith, hlen, Nat.min_self]

theorem worker_chunk_alignment_witness :
    (chunksOf 2 filesC6).flatten = filesC6 ∧
    (∀ c ∈ chunksOf 2 filesC6, c.length ≤ chunk_size filesC6.length 2) ∧
    workerStores 2 filesC6 resultsC6 = filesC6.zip resultsC6 ∧
    (workerStores 2 filesC6 resultsC6).length = filesC6.length :=
  worker_chunk_alignment 2 filesC6 resultsC6 (by decide) (by decide)

/-! Claim C7: renameKey -/

/-- Claim C7 is refuted at `oldKey = newKey`: with `"a"` present,
`renameKey("a", "a")` succeeds but afterwards the key maps to nothing — the
store-under-new-key is immediately undone by delete-old-key, so the new key
does not hold the old value. -/
theorem renameKey_self_counterexample :
    (renameKey dbC7 "a" "a" (some 2) 0).2 = none ∧
    mapGet (renameKey dbC7 "a" "a" (some 2) 0).1.memory "a" = none := by
  decide

/-- Claim C7 (amended): for `oldKey ≠ newKey`, whenever `oldKey` is present,
`renameKey` succeeds, afterwards `newKey` maps to the value previously held by
`oldKey` (with the supplied modification time, marked dirty) and `oldKey` is
absent; when `oldKey` is absent, `renameKey` fails.  When `oldKey = newKey`
the key is instead deleted (see the counterexample). -/
theorem renameKey_spec {T : Type} (s : DBState T) (oldKey newKey : String)
    (mt : Option Nat) (now : Nat) (hne : oldKey ≠ newKey) :
    (∀ v, mapGet s.memory oldKey = some v →
      (renameKey s oldKey newKey mt now).2 = none ∧
      mapGet (renameKey s oldKey newKey mt now).1.memory newKey
          = some ⟨v.data, mt.getD now, true⟩ ∧
      mapGet (renameKey s oldKey newKey mt now).1.memory oldKey = none) ∧
    (mapGet s.memory oldKey = none →
      renameKey s oldKey newKey mt now = (s, some "Key does not exist")) := by
  constructor
  · intro v hg
    have hget1 : mapGet (mapSet s.memory newKey
        ⟨v.data, mt.getD now, true⟩) oldKey = some v := by
      rw [mapGet_mapSet, if_neg hne, hg]
    unfold renameKey deleteKey storeKey
    rw [hg]
    simp only [hget1]
    refine ⟨trivial, ?_, ?_⟩
    · rw [mapGet_mapDelete, if_neg (fun h : newKey = oldKey => hne h.symm),
        mapGet_mapSet, if_pos rfl]
    · rw [mapGet_mapDelete, if_pos rfl]
  · intro hg
    unfold renameKey
    rw [hg]

theorem renameKey_spec_witness :
    (renameKey dbC7 "a" "b" (some 2) 0).2 = none ∧
    mapGet (renameKey dbC7 "a" "b" (some 2) 0).1.memory "b" = some ⟨7, 2, true⟩ ∧
    mapGet (renameKey dbC7 "a" "b" (some 2) 0).1.memory "a" = none :=
  (renameKey_spec dbC7 "a" "b" (some 2) 0 (by decide)).1 ⟨7, 1, false⟩ (by decide)

/-! Claim C8: dirty-clear-on-flush -/

/-- Claim C8 (confirmed): after a successful flush no entry remains marked
dirty (in particular none of the entries of that flush's write set); a
`storeKey` issued after the flush marks its own key dirty again and that entry
is part of the next flush's write set, so it is written by a later flush. -/
theorem flush_clears_dirty {T : Type} (s : DBState T) (k : String) (v : T)
    (mt : Option Nat) (now : Nat) :
    (∀ p ∈ (persistMemory s true true).1.memory, p.2.dirty = false) ∧
    mapGet (storeKey (persistMemory s true true).1 k v mt now true).memory k
        = some ⟨v, mt.getD now, true⟩ ∧
    (k, ⟨v, mt.getD now⟩) ∈
      flushWriteSet (storeKey (persistMemory s true true).1 k v mt now true) := by
  refine ⟨?_, ?_, ?_⟩
  · intro p hp
    simp only [persistMemory] at hp
    simp at hp
    obtain ⟨a, b, _, rfl⟩ := hp
    exact cleanEntry_dirty_false (a, b)
  · simp only [storeKey]
    rw [mapGet_mapSet, if_pos rfl]
  · unfold flushWriteSet storeKey
    simp only
    exact List.mem_map_of_mem _
      (List.mem_filter.mpr ⟨mem_mapSet_self _ _ _, rfl⟩)

theorem flush_clears_dirty_witness :
    (("a", (⟨5, 1, false⟩ : MemoryDatabaseItem Nat)).2.dirty = false) ∧
    mapGet (storeKey (persistMemory dbC8 true true).1 "a" 9 (some 7) 0
        true).memory "a" = some ⟨9, 7, true⟩ ∧
    ("a", (⟨9, 7⟩ : DatabaseItem Nat)) ∈
      flushWriteSet (storeKey (persistMemory dbC8 true true).1 "a" 9 (some 7) 0
        true) :=
  ⟨(flush_clears_dirty dbC8 "a" 9 (some 7) 0).1 ("a", ⟨5, 1, false⟩) (by decide),
    (flush_clears_dirty dbC8 "a" 9 (some 7) 0).2.1,
    (flush_clears_dirty dbC8 "a" 9 (some 7) 0).2.2⟩

/-! Claim C9: clearDatabase -/

/-- Claim C9 is refuted: `clearDatabase` does touch durable storage — with one
persisted entry the durable contents after `clearDatabase` differ from
before. -/
theorem clearDatabase_counterexample :
    (clearDatabase dbC9).persist ≠ dbC9.persist := by decide

/-- Claim C9 (amended): `clearDatabase` wipes the in-memory cache AND clears
the durable store's contents (`this.persist.clear()`), leaving the
pending-deletions set and the scheduling state untouched. -/
theorem clearDatabase_spec {T : Type} (s : DBState T) :
    (clearDatabase s).memory = [] ∧ (clearDatabase s).persist = [] ∧
    (clearDatabase s).deleted_keys = s.deleted_keys ∧
    (clearDatabase s).updateScheduled = s.updateScheduled :=
  ⟨rfl, rfl, rfl, rfl⟩

theorem clearDatabase_spec_witness :
    (clearDatabase dbC9).memory = [] ∧ (clearDatabase dbC9).persist = [] ∧
    (clearDatabase dbC9).deleted_keys = dbC9.deleted_keys ∧
    (clearDatabase dbC9).updateScheduled = dbC9.updateScheduled :=
  clearDatabase_spec dbC9

/-! Claim C10: error atomicity on absent keys -/

/-- Claim C10 (confirmed): `deleteKey` and `renameKey` on an absent key throw
`'Key does not exist'` before performing any mutation: the resulting state is
exactly the pre-call state (cache, pending deletions, durable store, and
scheduled-update flag all unchanged). -/
theorem absent_key_error_atomic {T : Type} (s : DBState T) (k k2 : String)
    (mt : Option Nat) (now : Nat) (h : mapGet s.memory k = none) :
    deleteKey s k = (s, some "Key does not exist") ∧
    renameKey s k k2 mt now = (s, some "Key does not exist") := by
  unfold deleteKey renameKey
  rw [h]
  exact ⟨rfl, rfl⟩

theorem absent_key_error_atomic_witness :
    deleteKey dbC10 "gone" = (dbC10, some "Key does not exist") ∧
    renameKey dbC10 "gone" "new" (some 5) 0 = (dbC10, some "Key does not exist") :=
  absent_key_error_atomic dbC10 "gone" "new" (some 5) 0 (by decide)

end ObsidianDB
